import Mathlib

/-!
Shallow embedding of the template-dom reconciler (src/lib.rs, src/arena.rs,
src/mutation.rs).

Modelling conventions:
- usize becomes Nat (allocator exhaustion / wraparound is unreachable per the
  spec and is not modelled; NonZeroUsize values are Nats that the code keeps
  positive).
- The Rust "todo!()" panics (Component slots anywhere, Fragment slots in
  create, mismatched variant pairs in diff, out-of-bounds pathway indexing)
  are modelled as a fatal outcome that carries the state at the panic point:
  entries already pushed into the caller-owned mutation vector stay pushed,
  and arena increments already performed stay performed, exactly as in Rust.
- Cell (interior) mutability of the identity cells (node_id, mounted_element,
  the id of a Text node) is modelled by explicit state passing: create and
  diff return the (possibly) updated instance alongside the log and arena.
  The source's create contains no Cell::set call at all, so create returns
  its input instance unchanged; diff writes only the Text-node id cells of
  the right instance.
- The pointer-equality fast path in diff's attribute comparison
  (std::ptr::eq before the content comparison) is semantically the content
  comparison: pointer-equal string slices are content-equal, so the combined
  condition is exactly content inequality.
-/

/-- ElementId from src/arena.rs: a wrapper around NonZeroUsize. -/
structure ElementId where
  val : Nat
  deriving DecidableEq, Repr

/-- Default for ElementId from src/arena.rs: NonZeroUsize 1, the reserved
"not yet assigned" sentinel. -/
def ElementId.default : ElementId := ⟨1⟩

/-- Arena from src/arena.rs: a monotonic counter starting at 1. -/
structure Arena where
  counter : Nat
  deriving DecidableEq, Repr

/-- Default for Arena from src/arena.rs: counter = 1. -/
def Arena.default : Arena := ⟨1⟩

/-- Arena.next from src/arena.rs: return the current counter as an
ElementId and advance the counter by one. -/
def Arena.next (a : Arena) : ElementId × Arena :=
  (⟨a.counter⟩, ⟨a.counter + 1⟩)

/-- Mutation from src/mutation.rs. Paths (static byte slices of
child-indices) become List Nat; string slices become String. -/
inductive Mutation : Type where
  | SetAttribute : (name : String) → (value : String) → (id : ElementId) → Mutation
  | LoadTemplate : (name : String) → (id : ElementId) → Mutation
  | HydrateText : (path : List Nat) → (value : String) → (id : ElementId) → Mutation
  | SetText : (value : String) → (id : ElementId) → Mutation
  | ReplacePlaceholder : (path : List Nat) → (id : ElementId) → Mutation
  | AssignId : (path : List Nat) → (id : ElementId) → Mutation
  | Replace : (id : ElementId) → Mutation
  deriving DecidableEq, Repr

/-- Modelled from the spec: the node module (mod node) is declared in
src/lib.rs but its file is not in the sources. An attribute: a (name,
value, namespace) triple; the namespace field (renamed ns, a Lean keyword)
is never consumed by create or diff. -/
structure Attribute where
  name : String
  value : String
  ns : Option String
  deriving DecidableEq, Repr

/-- Modelled from the spec: one dynamic-attribute slot - an Identity cell
for the mounted element that owns these attributes plus the list of
attributes. -/
structure AttributeLocation where
  mounted_element : ElementId
  attrs : List Attribute
  deriving DecidableEq, Repr

/-- Modelled from the spec: the static Template schema. Only the fields
consumed by create and diff are modelled: the stable template id and the
two pathway tables (the static node tree named root is never read by
create or diff). -/
structure Template where
  id : String
  node_pathways : List (List Nat)
  attr_pathways : List (List Nat)
  deriving DecidableEq, Repr

mutual
/-- Modelled from the spec: a dynamic-node slot - Text (value plus an
Identity cell), Component (name, unimplemented), or Fragment (recursive
child instances). -/
inductive DynamicNode : Type where
  | Component : (name : String) → DynamicNode
  | Text : (value : String) → (id : ElementId) → DynamicNode
  | Fragment : (children : List VTemplate) → DynamicNode

/-- Modelled from the spec: VTemplate, one runtime Instance of a Template
schema - the root Identity cell, the schema, and the two positionally
aligned slot-value lists. -/
inductive VTemplate : Type where
  | mk : (node_id : ElementId) → (template : Template) →
      (dynamic_nodes : List DynamicNode) →
      (dynamic_attrs : List AttributeLocation) → VTemplate
end

/-- Root identity cell of an instance. -/
def VTemplate.node_id : VTemplate → ElementId
  | .mk n _ _ _ => n

/-- Schema of an instance. -/
def VTemplate.template : VTemplate → Template
  | .mk _ t _ _ => t

/-- Dynamic node slots of an instance. -/
def VTemplate.dynamic_nodes : VTemplate → List DynamicNode
  | .mk _ _ ns _ => ns

/-- Dynamic attribute slots of an instance. -/
def VTemplate.dynamic_attrs : VTemplate → List AttributeLocation
  | .mk _ _ _ as => as

/-- Outcome of a create or diff call: ok is a normal return, fatal is a
todo-panic. Both carry the mutation log and arena as they stand at that
point (the caller-owned vector keeps what was pushed before a panic) and
the value (for fatal: the partially updated one at the panic point). -/
inductive Res (α : Type) : Type where
  | ok : (log : List Mutation) → (ar : Arena) → (val : α) → Res α
  | fatal : (log : List Mutation) → (ar : Arena) → (val : α) → Res α

/-- The mutation log of an outcome, whether ok or fatal. -/
def Res.log {α : Type} : Res α → List Mutation
  | .ok lg _ _ => lg
  | .fatal lg _ _ => lg

/-- The arena of an outcome, whether ok or fatal. -/
def Res.arena {α : Type} : Res α → Arena
  | .ok _ a _ => a
  | .fatal _ a _ => a

/-- The attribute loop of VirtualDom::create (src/lib.rs lines 56-69):
for each slot, allocate a fresh id, index attr_pathways (the arena is
advanced before the indexing, so an out-of-bounds panic leaves the arena
advanced and the log untouched for that slot), push AssignId, then push
one SetAttribute per attribute in list order. -/
def createAttrs (log : List Mutation) (ar : Arena) (pathways : List (List Nat))
    (idx : Nat) : List AttributeLocation → Res Unit
  | [] => .ok log ar ()
  | slot :: rest =>
    let p := ar.next
    match pathways[idx]? with
    | none => .fatal log p.2 ()
    | some path =>
      createAttrs
        (log ++ Mutation.AssignId path p.1 ::
          slot.attrs.map (fun a => Mutation.SetAttribute a.name a.value p.1))
        p.2 pathways (idx + 1) rest

/-- The node loop of VirtualDom::create (src/lib.rs lines 71-81):
Component and Fragment slots are todo-panics; a Text slot allocates a
fresh id (the slot's own id binding is shadowed, never written), indexes
node_pathways, and pushes HydrateText. -/
def createNodes (log : List Mutation) (ar : Arena) (pathways : List (List Nat))
    (idx : Nat) : List DynamicNode → Res Unit
  | [] => .ok log ar ()
  | DynamicNode.Component _ :: _ => .fatal log ar ()
  | DynamicNode.Text value _ :: rest =>
    let p := ar.next
    match pathways[idx]? with
    | none => .fatal log p.2 ()
    | some path =>
      createNodes (log ++ [Mutation.HydrateText path value p.1]) p.2 pathways
        (idx + 1) rest
  | DynamicNode.Fragment _ :: _ => .fatal log ar ()

/-- VirtualDom::create (src/lib.rs lines 48-82): allocate the root id,
push LoadTemplate, run the attribute loop, then the node loop. The source
performs no Cell::set, so the instance is returned unchanged. -/
def create (log : List Mutation) (ar : Arena) (t : VTemplate) : Res VTemplate :=
  let p := ar.next
  match createAttrs (log ++ [Mutation.LoadTemplate t.template.id p.1]) p.2
      t.template.attr_pathways 0 t.dynamic_attrs with
  | .fatal lg a _ => .fatal lg a t
  | .ok lg a _ =>
    match createNodes lg a t.template.node_pathways 0 t.dynamic_nodes with
    | .fatal lg2 a2 _ => .fatal lg2 a2 t
    | .ok lg2 a2 _ => .ok lg2 a2 t

/-- One attribute slot of the diff attribute loop (src/lib.rs lines
98-109, inner loop): zip the two attribute lists positionally; a pair
with unequal values pushes SetAttribute with the LEFT name, the LEFT
value and the right slot's mounted_element id (this is what the source
does; see the pointer fast-path note in the file header). -/
def diffAttrSlot (l r : AttributeLocation) : List Mutation :=
  (l.attrs.zip r.attrs).filterMap fun pr =>
    if pr.1.value ≠ pr.2.value then
      some (Mutation.SetAttribute pr.1.name pr.1.value r.mounted_element)
    else none

/-- The diff attribute loop (src/lib.rs lines 98-109, outer loop): zip
the slot lists positionally and concatenate the per-slot edits. -/
def diffAttrs (ls rs : List AttributeLocation) : List Mutation :=
  ((ls.zip rs).map fun pr => diffAttrSlot pr.1 pr.2).flatten

/-- Continuation of diff's shape-guard branch (src/lib.rs lines 90-94):
after create returns, push Replace with the left instance's root id. A
create panic propagates, leaving the log as create left it. -/
def diffReplaceWrap (lid : ElementId) : Res VTemplate → Res VTemplate
  | .ok lg a r2 => .ok (lg ++ [Mutation.Replace lid]) a r2
  | .fatal lg a r2 => .fatal lg a r2

/-- Repackage the node loop's outcome as the updated right instance:
the node-cell writes land in the dynamic_nodes list, everything else in
the right instance is untouched. -/
def diffNodesWrap (rid : ElementId) (rtpl : Template)
    (rattrs : List AttributeLocation) : Res (List DynamicNode) → Res VTemplate
  | .ok lg a ns => .ok lg a (.mk rid rtpl ns rattrs)
  | .fatal lg a ns => .fatal lg a (.mk rid rtpl ns rattrs)

/-- Prepend an already-processed element to the value of a loop outcome
(the tail of the zip iteration), ok or fatal alike. -/
def Res.consWrap {α : Type} (x : α) : Res (List α) → Res (List α)
  | .ok lg a rest => .ok lg a (x :: rest)
  | .fatal lg a rest => .fatal lg a (x :: rest)

mutual
/-- VirtualDom::diff (src/lib.rs lines 84-143). Different template ids:
create the right instance, then push Replace with the left root id.
Same ids: the attribute loop, then the node loop; the updated right
instance carries the node-cell writes. -/
def diff (log : List Mutation) (ar : Arena) (left right : VTemplate) :
    Res VTemplate :=
  if left.template.id ≠ right.template.id then
    diffReplaceWrap left.node_id (create log ar right)
  else
    match left, right with
    | .mk _ _ lnodes lattrs, .mk rid rtpl rnodes rattrs =>
      diffNodesWrap rid rtpl rattrs
        (diffNodes (log ++ diffAttrs lattrs rattrs) ar lnodes rnodes)
termination_by sizeOf left
decreasing_by all_goals (simp_wf <;> omega)

/-- The diff node loop (src/lib.rs lines 111-142): zip the node lists
positionally (iteration stops at the shorter list; surplus right nodes
are returned untouched). Text/Text copies the left id into the right
cell, then pushes SetText (carried id, new value) when the values
differ. Fragment/Fragment recurses pairwise over the children.
Component/Component and every mismatched variant pair are todo-panics. -/
def diffNodes (log : List Mutation) (ar : Arena) :
    List DynamicNode → List DynamicNode → Res (List DynamicNode)
  | [], rs => .ok log ar rs
  | _ :: _, [] => .ok log ar []
  | DynamicNode.Component _ :: _, DynamicNode.Component n2 :: rs =>
    .fatal log ar (DynamicNode.Component n2 :: rs)
  | DynamicNode.Text v1 id1 :: ls, DynamicNode.Text v2 _ :: rs =>
    Res.consWrap (DynamicNode.Text v2 id1)
      (diffNodes (if v1 ≠ v2 then log ++ [Mutation.SetText v2 id1] else log)
        ar ls rs)
  | DynamicNode.Fragment c1 :: ls, DynamicNode.Fragment c2 :: rs =>
    match diffChildren log ar c1 c2 with
    | .fatal lg2 a2 c2x => .fatal lg2 a2 (DynamicNode.Fragment c2x :: rs)
    | .ok lg2 a2 c2x => Res.consWrap (DynamicNode.Fragment c2x) (diffNodes lg2 a2 ls rs)
  | DynamicNode.Component _ :: _, DynamicNode.Text v2 id2 :: rs =>
    .fatal log ar (DynamicNode.Text v2 id2 :: rs)
  | DynamicNode.Component _ :: _, DynamicNode.Fragment c2 :: rs =>
    .fatal log ar (DynamicNode.Fragment c2 :: rs)
  | DynamicNode.Text _ _ :: _, DynamicNode.Component n2 :: rs =>
    .fatal log ar (DynamicNode.Component n2 :: rs)
  | DynamicNode.Text _ _ :: _, DynamicNode.Fragment c2 :: rs =>
    .fatal log ar (DynamicNode.Fragment c2 :: rs)
  | DynamicNode.Fragment _ :: _, DynamicNode.Component n2 :: rs =>
    .fatal log ar (DynamicNode.Component n2 :: rs)
  | DynamicNode.Fragment _ :: _, DynamicNode.Text v2 id2 :: rs =>
    .fatal log ar (DynamicNode.Text v2 id2 :: rs)
termination_by ls rs => sizeOf ls
decreasing_by all_goals (simp_wf <;> omega)

/-- The Fragment/Fragment recursion of diff (src/lib.rs lines 136-138):
diff the children pairwise in positional order; iteration stops at the
shorter list. -/
def diffChildren (log : List Mutation) (ar : Arena) :
    List VTemplate → List VTemplate → Res (List VTemplate)
  | [], rs => .ok log ar rs
  | _ :: _, [] => .ok log ar []
  | l :: ls, r :: rs =>
    match diff log ar l r with
    | .fatal lg a r2 => .fatal lg a (r2 :: rs)
    | .ok lg a r2 => Res.consWrap r2 (diffChildren lg a ls rs)
termination_by ls rs => sizeOf ls
decreasing_by all_goals (simp_wf <;> omega)
end

/-- Whether a dynamic node slot is a Text slot. -/
def DynamicNode.isText : DynamicNode → Bool
  | .Text _ _ => true
  | _ => false

/-- The attribute section of the edit sequence the spec says create emits:
for attribute slot i (in schema order), one AssignId with path =
attr_pathways[i] and a freshly allocated id, followed by one SetAttribute
per (name, value) attribute of that slot in list order, carrying that
same id. The counter c is the next identity the allocator will issue. -/
def createdAttrEdits (pathways : List (List Nat)) (c : Nat) (idx : Nat) :
    List AttributeLocation → List Mutation
  | [] => []
  | slot :: rest =>
    match pathways[idx]? with
    | none => []
    | some path =>
      Mutation.AssignId path ⟨c⟩ ::
        ((slot.attrs.map fun a => Mutation.SetAttribute a.name a.value ⟨c⟩) ++
          createdAttrEdits pathways (c + 1) (idx + 1) rest)

/-- The text section of the edit sequence the spec says create emits: for
node slot i (in order, all slots Text), one HydrateText with path =
node_pathways[i], the slot's text value and a freshly allocated id. -/
def createdTextEdits (pathways : List (List Nat)) (c : Nat) (idx : Nat) :
    List DynamicNode → List Mutation
  | [] => []
  | DynamicNode.Text v _ :: rest =>
    match pathways[idx]? with
    | none => []
    | some path =>
      Mutation.HydrateText path v ⟨c⟩ ::
        createdTextEdits pathways (c + 1) (idx + 1) rest
  | _ :: _ => []

/-- N consecutive Arena.next calls: the list of returned identities in
order, and the final arena. -/
def Arena.nextN : Arena → Nat → List ElementId × Arena
  | ar, 0 => ([], ar)
  | ar, n + 1 =>
    let p := ar.next
    let q := Arena.nextN p.2 n
    (p.1 :: q.1, q.2)

mutual
/-- An instance whose dynamic nodes are, recursively, all Text or
Fragment (no Component anywhere) - the shape on which diff of an
instance against itself runs todo-panic-free. -/
def VTemplate.tfo : VTemplate → Bool
  | .mk _ _ ns _ => nodesTfo ns
termination_by t => sizeOf t

/-- Text-or-Fragment check for one dynamic node. -/
def DynamicNode.tfo : DynamicNode → Bool
  | .Component _ => false
  | .Text _ _ => true
  | .Fragment cs => childrenTfo cs
termination_by n => sizeOf n

/-- Text-or-Fragment check for a node-slot list. -/
def nodesTfo : List DynamicNode → Bool
  | [] => true
  | n :: ns => n.tfo && nodesTfo ns
termination_by ns => sizeOf ns

/-- Text-or-Fragment check for a fragment-children list. -/
def childrenTfo : List VTemplate → Bool
  | [] => true
  | c :: cs => c.tfo && childrenTfo cs
termination_by cs => sizeOf cs
end

/-- Append untouched surplus elements to the value of a loop outcome,
ok or fatal alike (used to state that the zip-style loops of diff ignore
the entries past the common positional prefix). -/
def Res.appendWrap {α : Type} (ds : List α) : Res (List α) → Res (List α)
  | .ok lg a v => .ok lg a (v ++ ds)
  | .fatal lg a v => .fatal lg a (v ++ ds)

/-- Reattach, to the outcome of a diff on truncated instances, the
surplus right-instance node slots (untouched) and the full right
attribute-slot list. -/
def surplusWrap (nr : ElementId) (tr : Template) (bs : List AttributeLocation)
    (ds : List DynamicNode) : Res VTemplate → Res VTemplate
  | .ok lg a v => .ok lg a (.mk nr tr (v.dynamic_nodes ++ ds) bs)
  | .fatal lg a v => .fatal lg a (.mk nr tr (v.dynamic_nodes ++ ds) bs)

/-- The schema of the repository's makes_muts test: template id "123",
three dynamic text slots at paths [0], [1], [2] and one dynamic
attribute slot at path [0]. -/
def tpl0 : Template := ⟨"123", [[0], [1], [2]], [[0]]⟩

/-- The instance of the repository's makes_muts test: text values "abc",
"def", "efg", one attribute ("hidden", "true"), all identity cells at
their default (the unassigned sentinel). -/
def inst0 : VTemplate :=
  .mk ElementId.default tpl0
    [DynamicNode.Text "abc" ElementId.default,
     DynamicNode.Text "def" ElementId.default,
     DynamicNode.Text "efg" ElementId.default]
    [⟨ElementId.default, [⟨"hidden", "true", none⟩]⟩]

/-- An old instance with one attribute slot holding ("hidden", "a"). -/
def oldA : VTemplate :=
  .mk ⟨1⟩ ⟨"t", [], [[0]]⟩ [] [⟨⟨1⟩, [⟨"hidden", "a", none⟩]⟩]

/-- A new instance of the same schema holding ("hidden", "b"). -/
def newA : VTemplate :=
  .mk ⟨1⟩ ⟨"t", [], [[0]]⟩ [] [⟨⟨1⟩, [⟨"hidden", "b", none⟩]⟩]

/-- An instance with one attribute slot followed by a Component node
slot: create pushes three mutations and then hits the Component
todo-panic. -/
def compInstance : VTemplate :=
  .mk ⟨1⟩ ⟨"t", [[0]], [[0]]⟩ [DynamicNode.Component "c"]
    [⟨⟨1⟩, [⟨"a", "v", none⟩]⟩]

/-- An instance of an unrelated schema (template id "L"), with its root
cell holding identity 7. -/
def leftOther : VTemplate := .mk ⟨7⟩ ⟨"L", [], []⟩ [] []

/-- A Component-free instance with a Text slot and a Fragment slot. -/
def fragX : VTemplate :=
  .mk ⟨1⟩ ⟨"w", [], []⟩
    [DynamicNode.Text "x" ⟨2⟩,
     DynamicNode.Fragment [VTemplate.mk ⟨3⟩ ⟨"w", [], []⟩ [] []]]
    []

/-- An instance with two Text slots and one attribute slot of two
attributes. -/
def leftLong : VTemplate :=
  .mk ⟨1⟩ ⟨"t", [], []⟩
    [DynamicNode.Text "a" ⟨4⟩, DynamicNode.Text "b" ⟨5⟩]
    [⟨⟨6⟩, [⟨"x", "1", none⟩, ⟨"y", "2", none⟩]⟩]

/-- A same-schema instance with one Text slot and two attribute slots,
the first of one attribute: list lengths disagree with leftLong
everywhere. -/
def rightShort : VTemplate :=
  .mk ⟨2⟩ ⟨"t", [], []⟩
    [DynamicNode.Text "c" ⟨7⟩]
    [⟨⟨8⟩, [⟨"x", "9", none⟩]⟩, ⟨⟨9⟩, []⟩]

theorem createAttrs_spec (pathways : List (List Nat)) :
    ∀ (slots : List AttributeLocation) (log : List Mutation) (c idx : Nat),
      idx + slots.length ≤ pathways.length →
      createAttrs log ⟨c⟩ pathways idx slots =
        .ok (log ++ createdAttrEdits pathways c idx slots) ⟨c + slots.length⟩ ()
  | [], log, c, idx, _ => by simp [createAttrs, createdAttrEdits]
  | slot :: rest, log, c, idx, h => by
    have hlt : idx < pathways.length := by simp at h; omega
    have hget : pathways[idx]? = some pathways[idx] := List.getElem?_eq_getElem hlt
    have ih := createAttrs_spec pathways rest
      (log ++ Mutation.AssignId pathways[idx] ⟨c⟩ ::
        slot.attrs.map (fun a => Mutation.SetAttribute a.name a.value ⟨c⟩))
      (c + 1) (idx + 1) (by simp at h ⊢; omega)
    simp only [createAttrs, Arena.next, hget, createdAttrEdits, ih]
    congr 1
    · simp
    · congr 1
      simp only [List.length_cons]
      omega

theorem createNodes_spec (pathways : List (List Nat)) :
    ∀ (nodes : List DynamicNode) (log : List Mutation) (c idx : Nat),
      nodes.all DynamicNode.isText = true →
      idx + nodes.length ≤ pathways.length →
      createNodes log ⟨c⟩ pathways idx nodes =
        .ok (log ++ createdTextEdits pathways c idx nodes) ⟨c + nodes.length⟩ ()
  | [], log, c, idx, _, _ => by simp [createNodes, createdTextEdits]
  | DynamicNode.Component nm :: rest, log, c, idx, ht, _ => by
    simp [List.all_cons, DynamicNode.isText] at ht
  | DynamicNode.Fragment cs :: rest, log, c, idx, ht, _ => by
    simp [List.all_cons, DynamicNode.isText] at ht
  | DynamicNode.Text v id0 :: rest, log, c, idx, ht, h => by
    have hlt : idx < pathways.length := by simp at h; omega
    have hget : pathways[idx]? = some pathways[idx] := List.getElem?_eq_getElem hlt
    have ih := createNodes_spec pathways rest
      (log ++ [Mutation.HydrateText pathways[idx] v ⟨c⟩]) (c + 1) (idx + 1)
      (by simp only [List.all_cons, Bool.and_eq_true] at ht; exact ht.2)
      (by simp at h ⊢; omega)
    simp only [createNodes, Arena.next, hget, createdTextEdits, ih]
    congr 1
    · simp
    · congr 1
      simp only [List.length_cons]
      omega

/-- Claim C1: for every Instance whose dynamic node slots are all Text
(and whose slot lists match the schema pathway tables in length, the
spec's arity invariant), create emits exactly one LoadTemplate (name =
the schema id, id = freshly allocated) first, then for each attribute
slot in schema order one AssignId with path = attr_pathways of that
index followed by one SetAttribute per (name, value) attribute of the
slot in list order, then for each node slot in order one HydrateText
with path = node_pathways of that index and the slot's text value; no
other mutation kinds are emitted on this path. -/
theorem create_allText_emits (nid : ElementId) (tpl : Template)
    (nodes : List DynamicNode) (attrs : List AttributeLocation)
    (log : List Mutation) (ar : Arena)
    (hText : nodes.all DynamicNode.isText = true)
    (hA : attrs.length = tpl.attr_pathways.length)
    (hN : nodes.length = tpl.node_pathways.length) :
    create log ar (.mk nid tpl nodes attrs) =
      .ok (log ++ (Mutation.LoadTemplate tpl.id ⟨ar.counter⟩ ::
            (createdAttrEdits tpl.attr_pathways (ar.counter + 1) 0 attrs ++
              createdTextEdits tpl.node_pathways (ar.counter + 1 + attrs.length) 0
                nodes)))
        ⟨ar.counter + 1 + attrs.length + nodes.length⟩ (.mk nid tpl nodes attrs) := by
  have ha := createAttrs_spec tpl.attr_pathways attrs
    (log ++ [Mutation.LoadTemplate tpl.id ⟨ar.counter⟩]) (ar.counter + 1) 0
    (by omega)
  have hn := createNodes_spec tpl.node_pathways nodes
    ((log ++ [Mutation.LoadTemplate tpl.id ⟨ar.counter⟩]) ++
      createdAttrEdits tpl.attr_pathways (ar.counter + 1) 0 attrs)
    (ar.counter + 1 + attrs.length) 0 hText (by omega)
  simp only [create, Arena.next, VTemplate.template, VTemplate.dynamic_attrs,
    VTemplate.dynamic_nodes, ha, hn]
  congr 1
  simp

theorem create_allText_emits_witness :
    (inst0.dynamic_nodes.all DynamicNode.isText = true) ∧
    (inst0.dynamic_attrs.length = tpl0.attr_pathways.length) ∧
    (inst0.dynamic_nodes.length = tpl0.node_pathways.length) ∧
    create [] Arena.default inst0 =
      .ok (Mutation.LoadTemplate tpl0.id ⟨1⟩ ::
            (createdAttrEdits tpl0.attr_pathways 2 0 inst0.dynamic_attrs ++
              createdTextEdits tpl0.node_pathways 3 0 inst0.dynamic_nodes))
        ⟨6⟩ inst0 :=
  ⟨rfl, rfl, rfl,
    create_allText_emits ElementId.default tpl0 inst0.dynamic_nodes
      inst0.dynamic_attrs [] Arena.default rfl rfl rfl⟩

/-- Claim C3 is refuted by the code: create pushes the six expected
mutations for the makes_muts instance but performs no identity-cell
write at all (the Text arm of the source shadows the slot's id binding
with the freshly allocated one and never stores it), so after create the
root node_id, the attribute slot's mounted_element and every Text slot
id still hold the default unassigned sentinel instead of the fresh
distinct identities the claim requires. -/
theorem create_leaves_identity_cells_default :
    create [] Arena.default inst0 =
      .ok [Mutation.LoadTemplate "123" ⟨1⟩, Mutation.AssignId [0] ⟨2⟩,
           Mutation.SetAttribute "hidden" "true" ⟨2⟩,
           Mutation.HydrateText [0] "abc" ⟨3⟩, Mutation.HydrateText [1] "def" ⟨4⟩,
           Mutation.HydrateText [2] "efg" ⟨5⟩] ⟨6⟩ inst0 ∧
    inst0.node_id = ElementId.default ∧
    (∀ a ∈ inst0.dynamic_attrs, a.mounted_element = ElementId.default) ∧
    (∀ v id, DynamicNode.Text v id ∈ inst0.dynamic_nodes → id = ElementId.default) := by
  refine ⟨rfl, rfl, ?_, ?_⟩
  · simp [inst0, VTemplate.dynamic_attrs]
  · intro v id hm
    simp [inst0, VTemplate.dynamic_nodes] at hm
    rcases hm with ⟨_, h⟩ | ⟨_, h⟩ | ⟨_, h⟩ <;> exact h

/-- Claim C2 is refuted by the code: diffing two same-schema instances
whose single attribute pair is ("hidden", "a") against ("hidden", "b")
emits SetAttribute with value "a" - the OLD (left) instance's value,
because the source pushes left.value - while the claim (and the spec)
require the new (right) value "b". The id is indeed the new slot's
mounted-element identity, and equal pairs emit nothing. -/
theorem diff_attr_emits_old_value :
    diff [] Arena.default oldA newA =
      .ok [Mutation.SetAttribute "hidden" "a" ⟨1⟩] Arena.default newA ∧
    (∀ a ∈ newA.dynamic_attrs, ∀ b ∈ a.attrs, b.value = "b") := by
  constructor
  · simp [diff, diffNodes, diffAttrs, diffAttrSlot, diffNodesWrap, oldA, newA,
      VTemplate.template, VTemplate.dynamic_attrs, VTemplate.dynamic_nodes]
  · simp [newA, VTemplate.dynamic_attrs]

/-- Claim C4: when the two instances' schema ids differ, diff is
exactly create of the new instance (from the same allocator state and
log) followed by one Replace carrying the old instance's root identity,
with no slot-by-slot comparison - the outcome is diffReplaceWrap, which
appends the single Replace to whatever create produced. -/
theorem diff_mismatched_schema (log : List Mutation) (ar : Arena)
    (left right : VTemplate) (h : left.template.id ≠ right.template.id) :
    diff log ar left right = diffReplaceWrap left.node_id (create log ar right) := by
  rcases left with ⟨lid, ltpl, lns, las⟩
  rcases right with ⟨rid, rtpl, rns, ras⟩
  rw [diff.eq_1, if_pos h]

theorem diff_mismatched_schema_witness :
    (leftOther.template.id ≠ inst0.template.id) ∧
    diff [] Arena.default leftOther inst0 =
      diffReplaceWrap leftOther.node_id (create [] Arena.default inst0) :=
  ⟨by decide, diff_mismatched_schema [] Arena.default leftOther inst0 (by decide)⟩

/-- Claim C5: in the node loop of a same-schema diff, a positionally
matched Text/Text pair copies the old slot's identity into the new
slot's cell (the head of the resulting list is Text with the new value
and the OLD identity), and a SetText carrying that carried identity and
the new value is appended if and only if the two text values differ. -/
theorem diffNodes_text_carry (log : List Mutation) (ar : Arena) (v1 : String)
    (id1 : ElementId) (v2 : String) (id2 : ElementId) (ls rs : List DynamicNode) :
    diffNodes log ar (DynamicNode.Text v1 id1 :: ls) (DynamicNode.Text v2 id2 :: rs) =
      Res.consWrap (DynamicNode.Text v2 id1)
        (diffNodes (if v1 = v2 then log else log ++ [Mutation.SetText v2 id1]) ar ls rs) := by
  rw [diffNodes.eq_4]
  by_cases hv : v1 = v2 <;> simp [hv]

theorem diffAttrSlot_self (l : AttributeLocation) : diffAttrSlot l l = [] := by
  have key : ∀ (xs : List Attribute),
      (xs.zip xs).filterMap (fun pr =>
        if pr.1.value ≠ pr.2.value then
          some (Mutation.SetAttribute pr.1.name pr.1.value l.mounted_element)
        else none) = [] := by
    intro xs
    induction xs with
    | nil => rfl
    | cons a t ih =>
      have hnone : (if a.value ≠ a.value then
          some (Mutation.SetAttribute a.name a.value l.mounted_element)
        else none) = (none : Option Mutation) := by simp
      simp only [List.zip_cons_cons, List.filterMap_cons, hnone]
      exact ih
  simpa [diffAttrSlot] using key l.attrs

theorem diffAttrs_self (ls : List AttributeLocation) : diffAttrs ls ls = [] := by
  induction ls with
  | nil => rfl
  | cons a t ih =>
    simp only [diffAttrs, List.zip_cons_cons, List.map_cons, List.flatten_cons,
      diffAttrSlot_self, List.nil_append] at ih ⊢
    exact ih

mutual
theorem diff_self : ∀ (X : VTemplate) (log : List Mutation) (ar : Arena),
    X.tfo = true → diff log ar X X = .ok log ar X
  | .mk nid tpl ns attrs, log, ar, h => by
    have hns : nodesTfo ns = true := by simpa [VTemplate.tfo] using h
    rw [diff.eq_1, if_neg (by simp), diffAttrs_self, List.append_nil,
      diffNodes_self ns log ar hns]
    rfl
termination_by X _ _ _ => sizeOf X
decreasing_by all_goals (simp_wf <;> omega)

theorem diffNodes_self : ∀ (ns : List DynamicNode) (log : List Mutation)
    (ar : Arena), nodesTfo ns = true → diffNodes log ar ns ns = .ok log ar ns
  | [], log, ar, _ => by rw [diffNodes.eq_1]
  | DynamicNode.Component nm :: t, log, ar, h => by
    simp [nodesTfo, DynamicNode.tfo] at h
  | DynamicNode.Text v id :: t, log, ar, h => by
    have ht : nodesTfo t = true := by
      simp only [nodesTfo, Bool.and_eq_true] at h; exact h.2
    rw [diffNodes.eq_4, if_neg (by simp), diffNodes_self t log ar ht]
    rfl
  | DynamicNode.Fragment cs :: t, log, ar, h => by
    have hcs : childrenTfo cs = true := by
      simp only [nodesTfo, DynamicNode.tfo, Bool.and_eq_true] at h; exact h.1
    have ht : nodesTfo t = true := by
      simp only [nodesTfo, Bool.and_eq_true] at h; exact h.2
    rw [diffNodes.eq_5, diffChildren_self cs log ar hcs]
    show Res.consWrap (DynamicNode.Fragment cs) (diffNodes log ar t t) =
      Res.ok log ar (DynamicNode.Fragment cs :: t)
    rw [diffNodes_self t log ar ht]
    rfl
termination_by ns _ _ _ => sizeOf ns
decreasing_by all_goals (simp_wf <;> omega)

theorem diffChildren_self : ∀ (cs : List VTemplate) (log : List Mutation)
    (ar : Arena), childrenTfo cs = true → diffChildren log ar cs cs = .ok log ar cs
  | [], log, ar, _ => by rw [diffChildren.eq_1]
  | c :: t, log, ar, h => by
    have hc : c.tfo = true := by
      simp only [childrenTfo, Bool.and_eq_true] at h; exact h.1
    have ht : childrenTfo t = true := by
      simp only [childrenTfo, Bool.and_eq_true] at h; exact h.2
    rw [diffChildren.eq_3, diff_self c log ar hc]
    show Res.consWrap c (diffChildren log ar t t) = Res.ok log ar (c :: t)
    rw [diffChildren_self t log ar ht]
    rfl
termination_by cs _ _ _ => sizeOf cs
decreasing_by all_goals (simp_wf <;> omega)
end

/-- Claim C6: for every Instance X whose dynamic nodes are recursively
all Text or Fragment, diff of X against itself returns ok with the log
exactly as it was - nothing is appended, in particular no SetAttribute
and no SetText - and X unchanged. -/
theorem diff_self_appends_nothing (X : VTemplate) (log : List Mutation)
    (ar : Arena) (h : X.tfo = true) : diff log ar X X = .ok log ar X :=
  diff_self X log ar h

theorem diff_self_appends_nothing_witness :
    (fragX.tfo = true) ∧ diff [] Arena.default fragX fragX = .ok [] Arena.default fragX :=
  ⟨by simp [fragX, VTemplate.tfo, DynamicNode.tfo, nodesTfo, childrenTfo],
    diff_self_appends_nothing fragX [] Arena.default
      (by simp [fragX, VTemplate.tfo, DynamicNode.tfo, nodesTfo, childrenTfo])⟩

theorem nextN_fst : ∀ (n c : Nat), (Arena.nextN ⟨c⟩ n).1 =
    (List.range n).map (fun i => ⟨c + i⟩)
  | 0, c => by simp [Arena.nextN]
  | n + 1, c => by
    simp only [Arena.nextN, Arena.next, nextN_fst n (c + 1)]
    rw [List.range_succ_eq_map, List.map_cons, List.map_map]
    congr 1
    apply List.map_congr_left
    intro i _
    simp only [Function.comp_apply, ElementId.mk.injEq, Nat.succ_eq_add_one]
    omega

theorem nextN_snd : ∀ (n c : Nat), (Arena.nextN ⟨c⟩ n).2 = ⟨c + n⟩
  | 0, c => by simp [Arena.nextN]
  | n + 1, c => by
    simp only [Arena.nextN, Arena.next, nextN_snd n (c + 1)]
    simp only [ElementId.mk.injEq, Arena.mk.injEq]
    omega

/-- Counterexample to claim C7 as stated: the very first next() call on
a fresh Arena returns identity 1, which IS the reserved "not yet
assigned" sentinel (the ElementId default, the smallest valid integer),
so the returned identities are not all distinct from the sentinel and
the first returned identity is not the first non-sentinel value. -/
theorem arena_first_identity_is_sentinel :
    ElementId.default ∈ (Arena.default.nextN 1).1 ∧
    (Arena.default.nextN 1).1 = [ElementId.default] := by decide

/-- Claim C7 amended: N consecutive next() calls on one fresh Arena
return N pairwise distinct, strictly increasing identities whose values
are 1, 2, ..., N; the first returned identity equals the smallest valid
integer, which coincides with the reserved "not yet assigned" sentinel
value rather than being distinct from it. -/
theorem nextN_distinct_increasing (N : Nat) :
    ((Arena.default.nextN N).1).map ElementId.val = (List.range N).map (fun i => i + 1) ∧
    List.Pairwise (fun a b => a.val < b.val) (Arena.default.nextN N).1 ∧
    ((Arena.default.nextN (N + 1)).1).head? = some ElementId.default := by
  have h : (Arena.default.nextN N).1 = (List.range N).map (fun i => ⟨1 + i⟩) :=
    nextN_fst N 1
  have h1 : (Arena.default.nextN (N + 1)).1 =
      (List.range (N + 1)).map (fun i => ⟨1 + i⟩) := nextN_fst (N + 1) 1
  refine ⟨?_, ?_, ?_⟩
  · rw [h, List.map_map]
    apply List.map_congr_left
    intro i _
    simp only [Function.comp_apply]
    omega
  · rw [h]
    rw [List.pairwise_map]
    exact List.pairwise_lt_range N |>.imp (by intro a b hab; simpa using by omega)
  · rw [h1, List.range_succ_eq_map, List.map_cons]
    rfl

theorem Res.consWrap_log {α : Type} (x : α) (r : Res (List α)) :
    (Res.consWrap x r).log = r.log := by cases r <;> rfl

theorem diffNodesWrap_log (rid : ElementId) (rtpl : Template)
    (rattrs : List AttributeLocation) (r : Res (List DynamicNode)) :
    (diffNodesWrap rid rtpl rattrs r).log = r.log := by cases r <;> rfl

theorem createAttrs_log_extends :
    ∀ (slots : List AttributeLocation) (log : List Mutation) (ar : Arena)
      (pathways : List (List Nat)) (idx : Nat),
      ∃ s, (createAttrs log ar pathways idx slots).log = log ++ s
  | [], log, ar, pathways, idx => ⟨[], by simp [createAttrs, Res.log]⟩
  | slot :: rest, log, ar, pathways, idx => by
    cases hp : pathways[idx]? with
    | none => exact ⟨[], by simp [createAttrs, hp, Res.log]⟩
    | some path =>
      obtain ⟨s, hs⟩ := createAttrs_log_extends rest
        (log ++ Mutation.AssignId path (ar.next).1 ::
          slot.attrs.map (fun a => Mutation.SetAttribute a.name a.value (ar.next).1))
        (ar.next).2 pathways (idx + 1)
      refine ⟨Mutation.AssignId path (ar.next).1 ::
        (slot.attrs.map (fun a => Mutation.SetAttribute a.name a.value (ar.next).1) ++ s), ?_⟩
      simp only [createAttrs, hp, hs]
      simp

theorem createNodes_log_extends :
    ∀ (nodes : List DynamicNode) (log : List Mutation) (ar : Arena)
      (pathways : List (List Nat)) (idx : Nat),
      ∃ s, (createNodes log ar pathways idx nodes).log = log ++ s
  | [], log, ar, pathways, idx => ⟨[], by simp [createNodes, Res.log]⟩
  | DynamicNode.Component nm :: rest, log, ar, pathways, idx =>
    ⟨[], by simp [createNodes, Res.log]⟩
  | DynamicNode.Fragment cs :: rest, log, ar, pathways, idx =>
    ⟨[], by simp [createNodes, Res.log]⟩
  | DynamicNode.Text v id0 :: rest, log, ar, pathways, idx => by
    cases hp : pathways[idx]? with
    | none => exact ⟨[], by simp [createNodes, hp, Res.log]⟩
    | some path =>
      obtain ⟨s, hs⟩ := createNodes_log_extends rest
        (log ++ [Mutation.HydrateText path v (ar.next).1]) (ar.next).2 pathways (idx + 1)
      refine ⟨Mutation.HydrateText path v (ar.next).1 :: s, ?_⟩
      simp only [createNodes, hp, hs]
      simp

theorem create_log_extends (log : List Mutation) (ar : Arena) (t : VTemplate) :
    ∃ s, (create log ar t).log = log ++ s := by
  obtain ⟨s1, h1⟩ := createAttrs_log_extends t.dynamic_attrs
    (log ++ [Mutation.LoadTemplate t.template.id (ar.next).1]) (ar.next).2
    t.template.attr_pathways 0
  cases hc : createAttrs (log ++ [Mutation.LoadTemplate t.template.id (ar.next).1])
      (ar.next).2 t.template.attr_pathways 0 t.dynamic_attrs with
  | fatal lg a u =>
    rw [hc] at h1
    simp only [Res.log] at h1
    exact ⟨Mutation.LoadTemplate t.template.id (ar.next).1 :: s1, by
      simp [create, hc, Res.log, h1]⟩
  | ok lg a u =>
    rw [hc] at h1
    simp only [Res.log] at h1
    obtain ⟨s2, h2⟩ := createNodes_log_extends t.dynamic_nodes lg a
      t.template.node_pathways 0
    cases hn : createNodes lg a t.template.node_pathways 0 t.dynamic_nodes with
    | fatal lg2 a2 u2 =>
      rw [hn] at h2
      simp only [Res.log] at h2
      refine ⟨Mutation.LoadTemplate t.template.id (ar.next).1 :: (s1 ++ s2), ?_⟩
      simp only [create, hc, hn, Res.log]
      rw [h2, h1]
      simp
    | ok lg2 a2 u2 =>
      rw [hn] at h2
      simp only [Res.log] at h2
      refine ⟨Mutation.LoadTemplate t.template.id (ar.next).1 :: (s1 ++ s2), ?_⟩
      simp only [create, hc, hn, Res.log]
      rw [h2, h1]
      simp

mutual
theorem diff_log_extends : ∀ (left right : VTemplate) (log : List Mutation)
    (ar : Arena), ∃ s, (diff log ar left right).log = log ++ s
  | .mk lid ltpl lns lattrs, .mk rid rtpl rns rattrs, log, ar => by
    rw [diff.eq_1]
    by_cases hid : (VTemplate.mk lid ltpl lns lattrs).template.id ≠
        (VTemplate.mk rid rtpl rns rattrs).template.id
    · rw [if_pos hid]
      obtain ⟨s, hs⟩ := create_log_extends log ar (.mk rid rtpl rns rattrs)
      cases hc : create log ar (.mk rid rtpl rns rattrs) with
      | ok lg a v =>
        rw [hc] at hs
        simp only [Res.log] at hs
        exact ⟨s ++ [Mutation.Replace (VTemplate.mk lid ltpl lns lattrs).node_id],
          by simp [hc, diffReplaceWrap, Res.log, hs]⟩
      | fatal lg a v =>
        rw [hc] at hs
        simp only [Res.log] at hs
        exact ⟨s, by simp [hc, diffReplaceWrap, Res.log, hs]⟩
    · rw [if_neg hid]
      obtain ⟨s, hs⟩ := diffNodes_log_extends lns rns
        (log ++ diffAttrs lattrs rattrs) ar
      exact ⟨diffAttrs lattrs rattrs ++ s, by
        rw [diffNodesWrap_log, hs, List.append_assoc]⟩
termination_by left _ _ _ => sizeOf left
decreasing_by all_goals (simp_wf <;> omega)

theorem diffNodes_log_extends : ∀ (ls rs : List DynamicNode)
    (log : List Mutation) (ar : Arena),
    ∃ s, (diffNodes log ar ls rs).log = log ++ s
  | [], rs, log, ar => ⟨[], by rw [diffNodes.eq_1]; simp [Res.log]⟩
  | l :: ls, [], log, ar => ⟨[], by rw [diffNodes.eq_2]; simp [Res.log]⟩
  | DynamicNode.Component n1 :: ls, DynamicNode.Component n2 :: rs, log, ar =>
    ⟨[], by rw [diffNodes.eq_3]; simp [Res.log]⟩
  | DynamicNode.Text v1 id1 :: ls, DynamicNode.Text v2 id2 :: rs, log, ar => by
    rw [diffNodes.eq_4, Res.consWrap_log]
    by_cases hv : v1 ≠ v2
    · rw [if_pos hv]
      obtain ⟨s, hs⟩ := diffNodes_log_extends ls rs
        (log ++ [Mutation.SetText v2 id1]) ar
      exact ⟨Mutation.SetText v2 id1 :: s, by simp [hs]⟩
    · rw [if_neg hv]
      exact diffNodes_log_extends ls rs log ar
  | DynamicNode.Fragment c1 :: ls, DynamicNode.Fragment c2 :: rs, log, ar => by
    rw [diffNodes.eq_5]
    obtain ⟨s1, h1⟩ := diffChildren_log_extends c1 c2 log ar
    cases hc : diffChildren log ar c1 c2 with
    | fatal lg a v =>
      rw [hc] at h1
      simp only [Res.log] at h1
      exact ⟨s1, by simp [Res.log, h1]⟩
    | ok lg a v =>
      rw [hc] at h1
      simp only [Res.log] at h1
      obtain ⟨s2, h2⟩ := diffNodes_log_extends ls rs lg a
      exact ⟨s1 ++ s2, by rw [Res.consWrap_log, h2, h1, List.append_assoc]⟩
  | DynamicNode.Component n1 :: ls, DynamicNode.Text v2 id2 :: rs, log, ar =>
    ⟨[], by rw [diffNodes.eq_6]; simp [Res.log]⟩
  | DynamicNode.Component n1 :: ls, DynamicNode.Fragment c2 :: rs, log, ar =>
    ⟨[], by rw [diffNodes.eq_7]; simp [Res.log]⟩
  | DynamicNode.Text v1 id1 :: ls, DynamicNode.Component n2 :: rs, log, ar =>
    ⟨[], by rw [diffNodes.eq_8]; simp [Res.log]⟩
  | DynamicNode.Text v1 id1 :: ls, DynamicNode.Fragment c2 :: rs, log, ar =>
    ⟨[], by rw [diffNodes.eq_9]; simp [Res.log]⟩
  | DynamicNode.Fragment c1 :: ls, DynamicNode.Component n2 :: rs, log, ar =>
    ⟨[], by rw [diffNodes.eq_10]; simp [Res.log]⟩
  | DynamicNode.Fragment c1 :: ls, DynamicNode.Text v2 id2 :: rs, log, ar =>
    ⟨[], by rw [diffNodes.eq_11]; simp [Res.log]⟩
termination_by ls _ _ _ => sizeOf ls
decreasing_by all_goals (simp_wf <;> omega)

theorem diffChildren_log_extends : ∀ (ls rs : List VTemplate)
    (log : List Mutation) (ar : Arena),
    ∃ s, (diffChildren log ar ls rs).log = log ++ s
  | [], rs, log, ar => ⟨[], by rw [diffChildren.eq_1]; simp [Res.log]⟩
  | l :: ls, [], log, ar => ⟨[], by rw [diffChildren.eq_2]; simp [Res.log]⟩
  | l :: ls, r :: rs, log, ar => by
    rw [diffChildren.eq_3]
    obtain ⟨s1, h1⟩ := diff_log_extends l r log ar
    cases hc : diff log ar l r with
    | fatal lg a v =>
      rw [hc] at h1
      simp only [Res.log] at h1
      exact ⟨s1, by simp [Res.log, h1]⟩
    | ok lg a v =>
      rw [hc] at h1
      simp only [Res.log] at h1
      obtain ⟨s2, h2⟩ := diffChildren_log_extends ls rs lg a
      exact ⟨s1 ++ s2, by rw [Res.consWrap_log, h2, h1, List.append_assoc]⟩
termination_by ls _ _ _ => sizeOf ls
decreasing_by all_goals (simp_wf <;> omega)
end

/-- Counterexample to claim C8 as stated: create on an instance whose
node slot is a Component (a fatal condition) leaves the log with three
freshly appended entries (LoadTemplate, AssignId, SetAttribute) pushed
before the fatal point - the log is NOT left exactly as it was before
the call. -/
theorem create_fatal_partial_log :
    create [] Arena.default compInstance =
      .fatal [Mutation.LoadTemplate "t" ⟨1⟩, Mutation.AssignId [0] ⟨2⟩,
              Mutation.SetAttribute "a" "v" ⟨2⟩] ⟨3⟩ compInstance ∧
    Res.log (create [] Arena.default compInstance) ≠ [] := ⟨rfl, by decide⟩

/-- Claim C8 amended: when create or diff hits a fatal condition, the
call aborts immediately and the log keeps every entry present before
the call, extended by exactly the entries emitted before the fatal
point (possibly a nonempty proper prefix of the full sequence); there
is no rollback and no all-or-nothing guarantee. -/
theorem fatal_keeps_prior_log :
    (∀ (log : List Mutation) (ar : Arena) (t : VTemplate) (lg : List Mutation)
      (a : Arena) (v : VTemplate),
      create log ar t = .fatal lg a v → ∃ s, lg = log ++ s) ∧
    (∀ (log : List Mutation) (ar : Arena) (l r : VTemplate) (lg : List Mutation)
      (a : Arena) (v : VTemplate),
      diff log ar l r = .fatal lg a v → ∃ s, lg = log ++ s) := by
  constructor
  · intro log ar t lg a v h
    obtain ⟨s, hs⟩ := create_log_extends log ar t
    rw [h] at hs
    exact ⟨s, hs⟩
  · intro log ar l r lg a v h
    obtain ⟨s, hs⟩ := diff_log_extends l r log ar
    rw [h] at hs
    exact ⟨s, hs⟩

theorem fatal_keeps_prior_log_witness :
    (create [] Arena.default compInstance =
      .fatal [Mutation.LoadTemplate "t" ⟨1⟩, Mutation.AssignId [0] ⟨2⟩,
              Mutation.SetAttribute "a" "v" ⟨2⟩] ⟨3⟩ compInstance) ∧
    ∃ s, [Mutation.LoadTemplate "t" ⟨1⟩, Mutation.AssignId [0] ⟨2⟩,
          Mutation.SetAttribute "a" "v" ⟨2⟩] = [] ++ s :=
  ⟨rfl, fatal_keeps_prior_log.1 [] Arena.default compInstance
    [Mutation.LoadTemplate "t" ⟨1⟩, Mutation.AssignId [0] ⟨2⟩,
     Mutation.SetAttribute "a" "v" ⟨2⟩] ⟨3⟩ compInstance rfl⟩

/-- Claim C9: for every create or diff call that returns (ok outcome),
the resulting log is the pre-call log extended on the right - every
pre-existing entry is still present, unchanged, at its old position,
and new entries appear only after them. -/
theorem log_append_only :
    (∀ (log : List Mutation) (ar : Arena) (t : VTemplate) (lg : List Mutation)
      (a : Arena) (v : VTemplate),
      create log ar t = .ok lg a v → ∃ s, lg = log ++ s) ∧
    (∀ (log : List Mutation) (ar : Arena) (l r : VTemplate) (lg : List Mutation)
      (a : Arena) (v : VTemplate),
      diff log ar l r = .ok lg a v → ∃ s, lg = log ++ s) := by
  constructor
  · intro log ar t lg a v h
    obtain ⟨s, hs⟩ := create_log_extends log ar t
    rw [h] at hs
    exact ⟨s, hs⟩
  · intro log ar l r lg a v h
    obtain ⟨s, hs⟩ := diff_log_extends l r log ar
    rw [h] at hs
    exact ⟨s, hs⟩

theorem log_append_only_witness :
    (create [Mutation.Replace ⟨9⟩] Arena.default inst0 =
      .ok (Mutation.Replace ⟨9⟩ ::
           [Mutation.LoadTemplate "123" ⟨1⟩, Mutation.AssignId [0] ⟨2⟩,
            Mutation.SetAttribute "hidden" "true" ⟨2⟩,
            Mutation.HydrateText [0] "abc" ⟨3⟩, Mutation.HydrateText [1] "def" ⟨4⟩,
            Mutation.HydrateText [2] "efg" ⟨5⟩]) ⟨6⟩ inst0) ∧
    ∃ s, Mutation.Replace ⟨9⟩ ::
        [Mutation.LoadTemplate "123" ⟨1⟩, Mutation.AssignId [0] ⟨2⟩,
         Mutation.SetAttribute "hidden" "true" ⟨2⟩,
         Mutation.HydrateText [0] "abc" ⟨3⟩, Mutation.HydrateText [1] "def" ⟨4⟩,
         Mutation.HydrateText [2] "efg" ⟨5⟩] = [Mutation.Replace ⟨9⟩] ++ s :=
  ⟨rfl, log_append_only.1 [Mutation.Replace ⟨9⟩] Arena.default inst0 _ ⟨6⟩ inst0 rfl⟩

theorem zip_take_min {α β : Type} : ∀ (xs : List α) (ys : List β),
    xs.zip ys =
      (xs.take (min xs.length ys.length)).zip (ys.take (min xs.length ys.length))
  | [], ys => by simp
  | x :: xs, [] => by simp
  | x :: xs, y :: ys => by
    simp only [List.length_cons, Nat.succ_min_succ, List.take_succ_cons,
      List.zip_cons_cons]
    rw [← zip_take_min xs ys]

theorem diffAttrSlot_take (l r : AttributeLocation) :
    diffAttrSlot l r =
      diffAttrSlot ⟨l.mounted_element, l.attrs.take (min l.attrs.length r.attrs.length)⟩
        ⟨r.mounted_element, r.attrs.take (min l.attrs.length r.attrs.length)⟩ := by
  simp only [diffAttrSlot]
  rw [← zip_take_min]

theorem diffAttrs_take (ls rs : List AttributeLocation) :
    diffAttrs ls rs =
      diffAttrs (ls.take (min ls.length rs.length)) (rs.take (min ls.length rs.length)) := by
  simp only [diffAttrs]
  rw [← zip_take_min]

theorem consWrap_appendWrap {α : Type} (x : α) (ds : List α) (r : Res (List α)) :
    Res.appendWrap ds (Res.consWrap x r) = Res.consWrap x (Res.appendWrap ds r) := by
  cases r <;> simp [Res.appendWrap, Res.consWrap]

theorem diffNodes_take : ∀ (ls rs : List DynamicNode) (log : List Mutation)
    (ar : Arena),
    diffNodes log ar ls rs =
      Res.appendWrap (rs.drop (min ls.length rs.length))
        (diffNodes log ar (ls.take (min ls.length rs.length))
          (rs.take (min ls.length rs.length)))
  | [], rs, log, ar => by
    simp [diffNodes.eq_1, Res.appendWrap]
  | l :: ls, [], log, ar => by
    simp [diffNodes.eq_1, diffNodes.eq_2, Res.appendWrap]
  | DynamicNode.Component n1 :: ls, DynamicNode.Component n2 :: rs, log, ar => by
    simp only [List.length_cons, Nat.succ_min_succ, List.take_succ_cons,
      List.drop_succ_cons, diffNodes.eq_3, Res.appendWrap, List.cons_append,
      List.take_append_drop]
  | DynamicNode.Text v1 id1 :: ls, DynamicNode.Text v2 id2 :: rs, log, ar => by
    simp only [List.length_cons, Nat.succ_min_succ, List.take_succ_cons,
      List.drop_succ_cons, diffNodes.eq_4]
    rw [diffNodes_take ls rs
      (if v1 ≠ v2 then log ++ [Mutation.SetText v2 id1] else log) ar,
      consWrap_appendWrap]
  | DynamicNode.Fragment c1 :: ls, DynamicNode.Fragment c2 :: rs, log, ar => by
    simp only [List.length_cons, Nat.succ_min_succ, List.take_succ_cons,
      List.drop_succ_cons, diffNodes.eq_5]
    cases hc : diffChildren log ar c1 c2 with
    | fatal lg a v =>
      simp [Res.appendWrap, List.cons_append, List.take_append_drop]
    | ok lg a v =>
      simp [diffNodes_take ls rs lg a, consWrap_appendWrap]
  | DynamicNode.Component n1 :: ls, DynamicNode.Text v2 id2 :: rs, log, ar => by
    simp only [List.length_cons, Nat.succ_min_succ, List.take_succ_cons,
      List.drop_succ_cons, diffNodes.eq_6, Res.appendWrap, List.cons_append,
      List.take_append_drop]
  | DynamicNode.Component n1 :: ls, DynamicNode.Fragment c2 :: rs, log, ar => by
    simp only [List.length_cons, Nat.succ_min_succ, List.take_succ_cons,
      List.drop_succ_cons, diffNodes.eq_7, Res.appendWrap, List.cons_append,
      List.take_append_drop]
  | DynamicNode.Text v1 id1 :: ls, DynamicNode.Component n2 :: rs, log, ar => by
    simp only [List.length_cons, Nat.succ_min_succ, List.take_succ_cons,
      List.drop_succ_cons, diffNodes.eq_8, Res.appendWrap, List.cons_append,
      List.take_append_drop]
  | DynamicNode.Text v1 id1 :: ls, DynamicNode.Fragment c2 :: rs, log, ar => by
    simp only [List.length_cons, Nat.succ_min_succ, List.take_succ_cons,
      List.drop_succ_cons, diffNodes.eq_9, Res.appendWrap, List.cons_append,
      List.take_append_drop]
  | DynamicNode.Fragment c1 :: ls, DynamicNode.Component n2 :: rs, log, ar => by
    simp only [List.length_cons, Nat.succ_min_succ, List.take_succ_cons,
      List.drop_succ_cons, diffNodes.eq_10, Res.appendWrap, List.cons_append,
      List.take_append_drop]
  | DynamicNode.Fragment c1 :: ls, DynamicNode.Text v2 id2 :: rs, log, ar => by
    simp only [List.length_cons, Nat.succ_min_succ, List.take_succ_cons,
      List.drop_succ_cons, diffNodes.eq_11, Res.appendWrap, List.cons_append,
      List.take_append_drop]

/-- Claim C10: diff of two same-schema-id instances whose
dynamic_nodes, dynamic_attrs, or per-slot attribute lists have
different lengths behaves exactly like diff of the instances truncated
to the common positional prefix of each pair of lists: the log and
arena are identical (no edit is emitted for surplus entries and no
failure arises from them), and the surplus right node slots are
returned untouched. The second conjunct states the same truncation for
the attribute pairs inside one slot. -/
theorem diff_ignores_surplus (nl nr : ElementId) (tl tr : Template)
    (ls rs : List DynamicNode) (as bs : List AttributeLocation)
    (log : List Mutation) (ar : Arena) (h : tl.id = tr.id) :
    diff log ar (.mk nl tl ls as) (.mk nr tr rs bs) =
      surplusWrap nr tr bs (rs.drop (min ls.length rs.length))
        (diff log ar
          (.mk nl tl (ls.take (min ls.length rs.length))
            (as.take (min as.length bs.length)))
          (.mk nr tr (rs.take (min ls.length rs.length))
            (bs.take (min as.length bs.length)))) ∧
    (∀ (l r : AttributeLocation), diffAttrSlot l r =
      diffAttrSlot ⟨l.mounted_element, l.attrs.take (min l.attrs.length r.attrs.length)⟩
        ⟨r.mounted_element, r.attrs.take (min l.attrs.length r.attrs.length)⟩) := by
  refine ⟨?_, diffAttrSlot_take⟩
  rw [diff.eq_1, diff.eq_1,
    if_neg (by simp [VTemplate.template, h]),
    if_neg (by simp [VTemplate.template, h]),
    ← diffAttrs_take,
    diffNodes_take ls rs (log ++ diffAttrs as bs) ar]
  cases hd : diffNodes (log ++ diffAttrs as bs) ar
      (ls.take (min ls.length rs.length)) (rs.take (min ls.length rs.length)) with
  | ok lg a v =>
    simp [Res.appendWrap, diffNodesWrap, surplusWrap, VTemplate.dynamic_nodes]
  | fatal lg a v =>
    simp [Res.appendWrap, diffNodesWrap, surplusWrap, VTemplate.dynamic_nodes]

theorem diff_ignores_surplus_witness :
    ((⟨"t", [], []⟩ : Template).id = (⟨"t", [], []⟩ : Template).id) ∧
    (diff [] Arena.default leftLong rightShort =
      surplusWrap ⟨2⟩ ⟨"t", [], []⟩ rightShort.dynamic_attrs
        (rightShort.dynamic_nodes.drop 1)
        (diff [] Arena.default
          (.mk ⟨1⟩ ⟨"t", [], []⟩ (leftLong.dynamic_nodes.take 1)
            (leftLong.dynamic_attrs.take 1))
          (.mk ⟨2⟩ ⟨"t", [], []⟩ (rightShort.dynamic_nodes.take 1)
            (rightShort.dynamic_attrs.take 1))) ∧
     (∀ (l r : AttributeLocation), diffAttrSlot l r =
      diffAttrSlot ⟨l.mounted_element, l.attrs.take (min l.attrs.length r.attrs.length)⟩
        ⟨r.mounted_element, r.attrs.take (min l.attrs.length r.attrs.length)⟩)) :=
  ⟨rfl, diff_ignores_surplus ⟨1⟩ ⟨2⟩ ⟨"t", [], []⟩ ⟨"t", [], []⟩
    leftLong.dynamic_nodes rightShort.dynamic_nodes leftLong.dynamic_attrs
    rightShort.dynamic_attrs [] Arena.default rfl⟩
